import Mathlib

/- Verification of the Service Fabric Terraform provider core: the REST
client, long-running-operation poller, upgrade state machine, and the
service partition/update encoders, shallow-embedded from the Go source
(internal/servicefabric and internal/provider). -/

/-- Go strings.TrimPrefix on character lists: drops p from the front of s
when p is a leading pattern of s, otherwise returns s unchanged. -/
def trimPfxL (p s : List Char) : List Char :=
  if p.isPrefixOf s then s.drop p.length else s

/-- Go strings.ReplaceAll(n, "/", "~") as used by applicationIDFromName:
a single-character pattern and replacement, so it is the character map
sending '/' to '~'. -/
def slashToTilde (l : List Char) : List Char :=
  l.map (fun c => if c = '/' then '~' else c)

/-- applicationIDFromName from internal/servicefabric: strips the leading
scheme markers "fabric:/", "fabric:\", then a bare "/", in that order,
then replaces every '/' with '~'. -/
def applicationIDFromName (name : String) : String :=
  String.mk (slashToTilde (trimPfxL ("/".data)
    (trimPfxL ("fabric:\\".data) (trimPfxL ("fabric:/".data) name.data))))

theorem isPrefixOf_subset {p s : List Char} (h : p.isPrefixOf s = true) : p ⊆ s :=
  (List.isPrefixOf_iff_prefix.mp h).subset

theorem slash_not_mem_slashToTilde (l : List Char) : '/' ∉ slashToTilde l := by
  intro h
  rcases List.mem_map.mp h with ⟨c, -, hc⟩
  by_cases h' : c = '/'
  · rw [if_pos h'] at hc
    exact absurd hc (by decide)
  · rw [if_neg h'] at hc
    exact h' hc

theorem slashToTilde_of_not_mem {l : List Char} (h : '/' ∉ l) : slashToTilde l = l := by
  unfold slashToTilde
  calc l.map (fun c => if c = '/' then '~' else c)
      = l.map id := by
        apply List.map_congr_left
        intro a ha
        have : a ≠ '/' := fun e => h (e ▸ ha)
        simp [this]
    _ = l := List.map_id l

theorem trimPfxL_of_not {p s : List Char} (h : ¬ p.isPrefixOf s = true) :
    trimPfxL p s = s := by
  unfold trimPfxL
  rw [if_neg h]

theorem trimPfxL_append (p r : List Char) : trimPfxL p (p ++ r) = r := by
  have h : p.isPrefixOf (p ++ r) = true :=
    List.isPrefixOf_iff_prefix.mpr (List.prefix_append p r)
  unfold trimPfxL
  rw [if_pos h]
  simp

theorem bool_ne_true_of_eq_false {b : Bool} (h : b = false) : ¬ b = true := by
  rw [h]
  decide

/-- Claim C3 (amended): applicationIDFromName is deterministic; its output
contains no '/' (every path separator is replaced by the reserved '~'
marker); for a name "fabric:/" ++ rest whose remainder does not itself
begin with the scheme marker "fabric:\" or a bare "/", exactly that one
scheme marker is stripped and the remainder is separator-substituted; and
re-application is the identity whenever the output does not begin with the
backslash scheme marker "fabric:\" (unconditional idempotence fails, see
the counterexample). -/
theorem applicationIDFromName_props :
    (∀ n₁ n₂ : String, n₁ = n₂ → applicationIDFromName n₁ = applicationIDFromName n₂) ∧
    (∀ n : String, '/' ∉ (applicationIDFromName n).data) ∧
    (∀ rest : String, ("fabric:\\".data).isPrefixOf rest.data = false →
      ("/".data).isPrefixOf rest.data = false →
      applicationIDFromName ("fabric:/" ++ rest) = String.mk (slashToTilde rest.data)) ∧
    (∀ n : String, ("fabric:\\".data).isPrefixOf ((applicationIDFromName n).data) = false →
      applicationIDFromName (applicationIDFromName n) = applicationIDFromName n) := by
  refine ⟨fun n₁ n₂ h => by rw [h], fun n => slash_not_mem_slashToTilde _, ?_, ?_⟩
  · intro rest h1 h2
    unfold applicationIDFromName
    rw [String.data_append, trimPfxL_append,
      trimPfxL_of_not (bool_ne_true_of_eq_false h1),
      trimPfxL_of_not (bool_ne_true_of_eq_false h2)]
  · intro n h
    have hs : '/' ∉ (applicationIDFromName n).data := slash_not_mem_slashToTilde _
    have hf : ¬ ("fabric:/".data).isPrefixOf ((applicationIDFromName n).data) = true :=
      fun hb => hs (isPrefixOf_subset hb (by decide))
    have hb : ¬ ("fabric:\\".data).isPrefixOf ((applicationIDFromName n).data) = true :=
      bool_ne_true_of_eq_false h
    have hroot : ¬ ("/".data).isPrefixOf ((applicationIDFromName n).data) = true :=
      fun hb => hs (isPrefixOf_subset hb (by decide))
    have key : applicationIDFromName (applicationIDFromName n) =
        String.mk (slashToTilde (trimPfxL ("/".data) (trimPfxL ("fabric:\\".data)
          (trimPfxL ("fabric:/".data) ((applicationIDFromName n).data))))) := rfl
    rw [key, trimPfxL_of_not hf, trimPfxL_of_not hb, trimPfxL_of_not hroot,
      slashToTilde_of_not_mem hs]

/-- Claim C3 witness: the amended theorem applied to concrete names, with
every hypothesis discharged by evaluation. -/
theorem applicationIDFromName_props_witness :
    applicationIDFromName ("fabric:/App/Sub") = String.mk (slashToTilde ("App/Sub".data)) ∧
    applicationIDFromName (applicationIDFromName ("fabric:/App/Sub")) =
      applicationIDFromName ("fabric:/App/Sub") :=
  ⟨applicationIDFromName_props.2.2.1 "App/Sub" (by decide) (by decide),
   applicationIDFromName_props.2.2.2 "fabric:/App/Sub" (by decide)⟩

/-- Claim C3 counterexample: applicationIDFromName is not idempotent as
claimed. The name "fabric:\fabric:\A" maps to "fabric:\A" (only one
backslash marker is stripped), and re-applying the transform strips the
second marker, yielding "A". -/
theorem applicationIDFromName_not_idempotent :
    applicationIDFromName (applicationIDFromName ("fabric:\\fabric:\\A")) ≠
      applicationIDFromName ("fabric:\\fabric:\\A") := by decide

/-- NameValueParameter from internal/servicefabric: the Key/Value pair
structure used by the Service Fabric API for application parameters. -/
structure NameValueParameter where
  Key : String
  Value : String
deriving DecidableEq

/-- Go sort.Strings: ascending lexicographic order. Lean's codepoint
order on strings coincides with byte order on UTF-8 encodings, so the
orders agree; the sorting algorithm itself is observationally just
"sort ascending". -/
def sortStringsGo (l : List String) : List String :=
  l.insertionSort (· ≤ ·)

/-- A Go map[string]string is modelled as its entry sequence in iteration
order: an association list whose keys are pairwise distinct (the Nodup
hypothesis in the theorems below). mapToParameterList from
internal/servicefabric: nil for an empty map, otherwise the entries
listed in ascending key order. -/
def mapToParameterList (m : List (String × String)) : List NameValueParameter :=
  if m.isEmpty then [] else
    (sortStringsGo (m.map Prod.fst)).map (fun k => ⟨k, (m.lookup k).getD ""⟩)

/-- Assignment out[k] = v on a Go map modelled as an association list:
replace the binding in place when the key exists, append otherwise. -/
def goMapInsert (m : List (String × String)) (k v : String) : List (String × String) :=
  if (m.lookup k).isSome then m.map (fun e => if e.1 == k then (k, v) else e)
  else m ++ [(k, v)]

/-- ParameterListToMap from internal/servicefabric: builds a map from the
parameter list by assigning each entry in order. -/
def ParameterListToMap (list : List NameValueParameter) : List (String × String) :=
  list.foldl (fun acc e => goMapInsert acc e.Key e.Value) []

theorem lookup_append_single (m : List (String × String)) (k v k' : String) :
    (m ++ [(k, v)]).lookup k' =
      (m.lookup k').or (if k' == k then some v else none) := by
  induction m with
  | nil =>
    by_cases h : k' = k
    · simp [List.lookup, h]
    · have hb : (k' == k) = false := by simp [h]
      simp [List.lookup, h, hb]
  | cons e rest ih =>
    rcases e with ⟨ek, ev⟩
    by_cases h : k' == ek
    · simp [List.lookup, h]
    · simp only [List.cons_append, List.lookup, h]
      exact ih

theorem lookup_isSome_iff_mem (m : List (String × String)) (k : String) :
    (m.lookup k).isSome ↔ k ∈ m.map Prod.fst := by
  induction m with
  | nil => simp [List.lookup]
  | cons e rest ih =>
    rcases e with ⟨ek, ev⟩
    by_cases h : k == ek
    · have : k = ek := by simpa using h
      simp [List.lookup, h, this]
    · have : ¬ k = ek := by simpa using h
      simp [List.lookup, h, this, ih]

theorem foldl_goMapInsert_lookup (l : List NameValueParameter) :
    ∀ (acc : List (String × String)) (k : String),
      (l.map (·.Key)).Nodup →
      (∀ e ∈ l, acc.lookup e.Key = none) →
      ((l.foldl (fun acc e => goMapInsert acc e.Key e.Value) acc).lookup k) =
        ((l.find? (fun e => e.Key == k)).map (·.Value)).or (acc.lookup k) := by
  induction l with
  | nil => intro acc k _ _; simp
  | cons e l ih =>
    intro acc k hnd hacc
    have hek : acc.lookup e.Key = none := hacc e (List.mem_cons_self e l)
    have hins : goMapInsert acc e.Key e.Value = acc ++ [(e.Key, e.Value)] := by
      unfold goMapInsert
      rw [if_neg (by simp [hek])]
    have hnd' : (l.map (·.Key)).Nodup := (List.nodup_cons.mp hnd).2
    have hmem : e.Key ∉ l.map (·.Key) := (List.nodup_cons.mp hnd).1
    have hacc' : ∀ x ∈ l, (acc ++ [(e.Key, e.Value)]).lookup x.Key = none := by
      intro x hx
      rw [lookup_append_single, hacc x (List.mem_cons_of_mem e hx)]
      have : ¬ x.Key = e.Key := fun hxe => hmem (hxe ▸ List.mem_map_of_mem (·.Key) hx)
      simp [this]
    have step : (l.foldl (fun acc e => goMapInsert acc e.Key e.Value)
        (acc ++ [(e.Key, e.Value)])).lookup k =
        ((l.find? (fun e => e.Key == k)).map (·.Value)).or
          ((acc ++ [(e.Key, e.Value)]).lookup k) := ih _ k hnd' hacc'
    rw [List.foldl_cons, hins, step, lookup_append_single]
    by_cases hk : k = e.Key
    · have hfind : l.find? (fun x => x.Key == k) = none := by
        rw [List.find?_eq_none]
        intro x hx hpx
        have hxk : x.Key = k := by simpa using hpx
        exact hmem (by rw [← hk, ← hxk]; exact List.mem_map_of_mem (·.Key) hx)
      have hfind2 : (e :: l).find? (fun x => x.Key == k) = some e := by
        have : (e.Key == k) = true := by simp [hk]
        simp [List.find?_cons, this]
      rw [hfind, hfind2, hk, hek]
      simp [hk]
    · have hfind2 : (e :: l).find? (fun x => x.Key == k) =
          l.find? (fun x => x.Key == k) := by
        have : (e.Key == k) = false := by simp [Ne.symm hk]
        simp [List.find?_cons, this]
      have : (k == e.Key) = false := by simp [hk]
      rw [hfind2, this]
      simp

theorem ParameterListToMap_lookup (l : List NameValueParameter)
    (h : (l.map (·.Key)).Nodup) (k : String) :
    (ParameterListToMap l).lookup k = (l.find? (fun e => e.Key == k)).map (·.Value) := by
  have hmain := foldl_goMapInsert_lookup l [] k h (fun e _ => rfl)
  simpa [ParameterListToMap] using hmain

theorem find?_beq_self (l : List String) (k : String) :
    l.find? (fun x => x == k) = if k ∈ l then some k else none := by
  induction l with
  | nil => simp
  | cons x l ih =>
    by_cases h : x = k
    · subst h
      simp [List.find?_cons]
    · have hb : (x == k) = false := by simp [h]
      simp [List.find?_cons, hb, ih, Ne.symm h]

theorem lookup_eq_none_of_not_mem {m : List (String × String)} {k : String}
    (h : k ∉ m.map Prod.fst) : m.lookup k = none := by
  cases hl : m.lookup k with
  | none => rfl
  | some v =>
    exact absurd ((lookup_isSome_iff_mem m k).mp (by rw [hl]; rfl)) h

theorem mapToParameterList_find (m : List (String × String)) (k : String) :
    ((mapToParameterList m).find? (fun e => e.Key == k)).map (·.Value) = m.lookup k := by
  unfold mapToParameterList
  by_cases he : m.isEmpty
  · have hme : m = [] := by
      cases m with
      | nil => rfl
      | cons a l => simp [List.isEmpty] at he
    subst hme
    simp [List.lookup]
  · rw [if_neg he, List.find?_map]
    have hcomp : ((fun e : NameValueParameter => e.Key == k) ∘
        (fun k' => (⟨k', (m.lookup k').getD ""⟩ : NameValueParameter))) =
        fun k' => k' == k := rfl
    rw [hcomp, find?_beq_self, Option.map_map]
    have hmem : (k ∈ sortStringsGo (m.map Prod.fst)) ↔ k ∈ m.map Prod.fst :=
      (List.perm_insertionSort _ _).mem_iff
    by_cases hk : k ∈ m.map Prod.fst
    · rw [if_pos (hmem.mpr hk)]
      obtain ⟨v, hv⟩ := Option.isSome_iff_exists.mp ((lookup_isSome_iff_mem m k).mpr hk)
      simp [hv]
    · rw [if_neg (fun hx => hk (hmem.mp hx)), lookup_eq_none_of_not_mem hk]
      rfl

/-- Claim C9: for every parameter map (association list with distinct
keys, in arbitrary iteration order), converting to a parameter list and
back yields a map with pointwise-equal lookups; the emitted list is
always in ascending key order; and the emitted list is the same for any
two iteration orders of the same map. -/
theorem mapToParameterList_roundTrip_sorted :
    (∀ m : List (String × String), (m.map Prod.fst).Nodup →
      ∀ k, (ParameterListToMap (mapToParameterList m)).lookup k = m.lookup k) ∧
    (∀ m : List (String × String),
      List.Pairwise (fun a b : NameValueParameter => a.Key ≤ b.Key) (mapToParameterList m)) ∧
    (∀ m₁ m₂ : List (String × String), (m₁.map Prod.fst).Nodup →
      (m₂.map Prod.fst).Nodup → (∀ k, m₁.lookup k = m₂.lookup k) →
      mapToParameterList m₁ = mapToParameterList m₂) := by
  refine ⟨?_, ?_, ?_⟩
  · intro m hm k
    have hkeynd : ((mapToParameterList m).map (·.Key)).Nodup := by
      unfold mapToParameterList
      by_cases he : m.isEmpty
      · rw [if_pos he]; exact List.nodup_nil
      · rw [if_neg he, List.map_map]
        have hid : ((sortStringsGo (m.map Prod.fst)).map
            ((fun e : NameValueParameter => e.Key) ∘
              (fun k' => (⟨k', (m.lookup k').getD ""⟩ : NameValueParameter)))) =
            sortStringsGo (m.map Prod.fst) := by
          have : ((fun e : NameValueParameter => e.Key) ∘
              (fun k' => (⟨k', (m.lookup k').getD ""⟩ : NameValueParameter))) =
              fun k' => k' := rfl
          rw [this, List.map_id']
        rw [hid]
        exact ((List.perm_insertionSort _ _).nodup_iff).mpr hm
    rw [ParameterListToMap_lookup _ hkeynd k, mapToParameterList_find]
  · intro m
    unfold mapToParameterList
    by_cases he : m.isEmpty
    · rw [if_pos he]; exact List.Pairwise.nil
    · rw [if_neg he, List.pairwise_map]
      exact List.sorted_insertionSort (· ≤ ·) (m.map Prod.fst)
  · intro m₁ m₂ h₁ h₂ hext
    have hmemkeys : ∀ k, k ∈ m₁.map Prod.fst ↔ k ∈ m₂.map Prod.fst := by
      intro k
      rw [← lookup_isSome_iff_mem, ← lookup_isSome_iff_mem, hext k]
    have hperm : (m₁.map Prod.fst).Perm (m₂.map Prod.fst) :=
      (List.perm_ext_iff_of_nodup h₁ h₂).mpr hmemkeys
    have hsorted : sortStringsGo (m₁.map Prod.fst) = sortStringsGo (m₂.map Prod.fst) :=
      List.eq_of_perm_of_sorted
        ((List.perm_insertionSort _ _).trans (hperm.trans
          (List.perm_insertionSort _ _).symm))
        (List.sorted_insertionSort _ _) (List.sorted_insertionSort _ _)
    have hlen : m₁.length = m₂.length := by
      have := hperm.length_eq
      simpa using this
    have hemp : m₁.isEmpty = m₂.isEmpty := by
      cases m₁ <;> cases m₂ <;> first | rfl | simp at hlen
    unfold mapToParameterList
    rw [hemp, hsorted]
    by_cases h : m₂.isEmpty
    · rw [if_pos h, if_pos h]
    · rw [if_neg h, if_neg h]
      exact List.map_congr_left (fun k _ => by rw [hext k])

/-- Claim C9 witness: the round trip and order independence evaluated on
the concrete two-entry map b=2, a=1 given in both iteration orders. -/
theorem mapToParameterList_roundTrip_sorted_witness :
    (ParameterListToMap (mapToParameterList ([("b", "2"), ("a", "1")]))).lookup ("a")
      = some "1" ∧
    mapToParameterList ([("b", "2"), ("a", "1")]) =
      mapToParameterList ([("a", "1"), ("b", "2")]) := by
  constructor
  · have h := mapToParameterList_roundTrip_sorted.1 ([("b", "2"), ("a", "1")]) (by decide) "a"
    rw [h]
    decide
  · apply mapToParameterList_roundTrip_sorted.2.2 ([("b", "2"), ("a", "1")])
      ([("a", "1"), ("b", "2")]) (by decide) (by decide)
    intro k
    by_cases hb : k = "b"
    · subst hb; decide
    · by_cases ha : k = "a"
      · subst ha; decide
      · have h1 : (k == "b") = false := by simp [hb]
        have h2 : (k == "a") = false := by simp [ha]
        simp [List.lookup, h1, h2]

/-- operationError from internal/servicefabric: the nested error object
of an operation-status payload. -/
structure operationError where
  Code : String
  Message : String
deriving DecidableEq

/-- operationStatus from internal/servicefabric: the decoded long-running
operation payload, with both possible state field names and the optional
nested error. -/
structure operationStatus where
  Name : String
  ID : String
  Status : String
  StateF : String
  Error : Option operationError
deriving DecidableEq

/-- operationStatus.State: the "Status" field wins when non-empty,
otherwise the "State" field is used. -/
def operationStatus.State (o : operationStatus) : String :=
  if o.Status ≠ "" then o.Status else o.StateF

/-- operationStatus.ErrorString: the nested message, "" when there is no
nested error object. -/
def operationStatus.ErrorString (o : operationStatus) : String :=
  match o.Error with
  | none => ""
  | some e => e.Message

/-- Go strings.ToLower as used by the classifier: a per-character case
map. The comparisons are against ASCII keywords, where Go and ASCII
lowercasing agree. -/
def goToLower (s : String) : String := String.mk (s.data.map Char.toLower)

inductive PollDecision where
  | success : PollDecision
  | failure : String → PollDecision
  | pending : PollDecision
deriving DecidableEq

/-- The switch on strings.ToLower(status.State()) inside pollOperation:
success keywords return, failed/faulted return a formatted error, every
other value keeps polling. -/
def classifyOperationStatus (o : operationStatus) : PollDecision :=
  if goToLower o.State = "succeeded" ∨ goToLower o.State = "success" ∨
      goToLower o.State = "completed" ∨ goToLower o.State = "complete" then .success
  else if goToLower o.State = "failed" ∨ goToLower o.State = "faulted" then
    .failure ("operation failed: " ++ o.ErrorString)
  else .pending

/-- Decimal digit-string reading (the integer part of Go duration
syntax). -/
def parseDecNat (s : String) : Option Nat :=
  if s.data ≠ [] ∧ s.data.all Char.isDigit then
    some (s.data.foldl (fun a c => a * 10 + (c.toNat - 48)) 0)
  else none

/-- Modelled from the source's use of time.ParseDuration(retry ++ "s")
for the plain nonnegative-integer header values the claims range over;
a value whose nanosecond count overflows int64 fails to parse in Go.
Non-integer duration syntax is outside every claim. -/
def goRetrySeconds (retry : String) : Option Nat :=
  match parseDecNat retry with
  | some n => if n * 1000000000 ≤ 9223372036854775807 then some n else none
  | none => none

/-- The Retry-After handling at the bottom of the poll loop: a non-empty
header that parses to a positive duration replaces the delay, anything
else leaves it unchanged. -/
def nextPollDelay (delay : Nat) (retry : String) : Nat :=
  if retry ≠ "" then
    match goRetrySeconds retry with
    | some n => if 0 < n then n else delay
    | none => delay
  else delay

/-- One polled GET response: HTTP status code and status line text, the
decoded operation-status payload (none models a JSON decode failure), the
raw body, and the Retry-After header ("" when absent). -/
structure PollResp where
  httpStatus : Nat
  statusText : String
  decoded : Option operationStatus
  rawBody : String
  retryAfter : String
deriving DecidableEq

/-- Go strings.TrimSpace: trims whitespace at both ends (the ASCII
whitespace class; the exotic Unicode space characters never appear in the
inputs the claims range over). -/
def goTrimSpace (s : String) : String :=
  String.mk (((s.data.dropWhile Char.isWhitespace).reverse.dropWhile
    Char.isWhitespace).reverse)

inductive PollResult where
  | ok : PollResult
  | err : String → PollResult
  | ranOut : PollResult
deriving DecidableEq

/-- pollOperation's loop from internal/servicefabric, driven by the
successive GET responses of the cluster; returns the outcome together
with the sleep durations (seconds) performed between polls. The ranOut
result marks a supplied trace ending while the loop would still poll. -/
def pollOperationSteps : Nat → List PollResp → PollResult × List Nat
  | _, [] => (.ranOut, [])
  | delay, r :: rest =>
    if 400 ≤ r.httpStatus then
      (.err ("operation polling failed: " ++ r.statusText ++ " (" ++
        goTrimSpace r.rawBody ++ ")"), [])
    else
      match r.decoded with
      | none => (.err ("decode operation status: " ++ r.rawBody), [])
      | some st =>
        match classifyOperationStatus st with
        | .success => (.ok, [])
        | .failure m => (.err m, [])
        | .pending =>
          ((pollOperationSteps (nextPollDelay delay r.retryAfter) rest).1,
            nextPollDelay delay r.retryAfter ::
              (pollOperationSteps (nextPollDelay delay r.retryAfter) rest).2)

/-- pollOperation: an empty location reports success without polling,
otherwise the loop starts with a 5 second delay. -/
def pollOperation (location : String) (responses : List PollResp) :
    PollResult × List Nat :=
  if location = "" then (.ok, []) else pollOperationSteps 5 responses

theorem classify_success_of {o : operationStatus}
    (h : goToLower o.State = "succeeded" ∨ goToLower o.State = "success" ∨
      goToLower o.State = "completed" ∨ goToLower o.State = "complete") :
    classifyOperationStatus o = .success := by
  unfold classifyOperationStatus
  rw [if_pos h]

theorem classify_failure_of {o : operationStatus}
    (h : goToLower o.State = "failed" ∨ goToLower o.State = "faulted") :
    classifyOperationStatus o = .failure ("operation failed: " ++ o.ErrorString) := by
  have hne : ¬ (goToLower o.State = "succeeded" ∨ goToLower o.State = "success" ∨
      goToLower o.State = "completed" ∨ goToLower o.State = "complete") := by
    rcases h with h | h <;> rw [h] <;> decide
  unfold classifyOperationStatus
  rw [if_neg hne, if_pos h]

theorem classify_pending_of {o : operationStatus}
    (h : goToLower o.State ∉ (["succeeded", "success", "completed", "complete",
      "failed", "faulted"] : List String)) :
    classifyOperationStatus o = .pending := by
  simp only [List.mem_cons, List.mem_singleton, not_or] at h
  obtain ⟨h1, h2, h3, h4, h5, h6⟩ := h
  unfold classifyOperationStatus
  rw [if_neg (by simp [h1, h2, h3, h4]), if_neg (by simp [h5, h6])]

/-- Claim C2: the poller takes the state from the Status field, else the
State field (first non-empty wins), and classifies the lowercased value:
any of succeeded/success/completed/complete returns success; failed or
faulted returns an error formatted from the nested error message; any
other value continues polling. -/
theorem pollOperation_classification :
    (∀ o : operationStatus, o.Status ≠ "" → o.State = o.Status) ∧
    (∀ o : operationStatus, o.Status = "" → o.State = o.StateF) ∧
    (∀ (d : Nat) (r : PollResp) (rest : List PollResp) (o : operationStatus),
      r.httpStatus < 400 → r.decoded = some o →
      (goToLower o.State = "succeeded" ∨ goToLower o.State = "success" ∨
        goToLower o.State = "completed" ∨ goToLower o.State = "complete") →
      pollOperationSteps d (r :: rest) = (.ok, [])) ∧
    (∀ (d : Nat) (r : PollResp) (rest : List PollResp) (o : operationStatus),
      r.httpStatus < 400 → r.decoded = some o →
      (goToLower o.State = "failed" ∨ goToLower o.State = "faulted") →
      pollOperationSteps d (r :: rest) =
        (.err ("operation failed: " ++ o.ErrorString), [])) ∧
    (∀ (d : Nat) (r : PollResp) (rest : List PollResp) (o : operationStatus),
      r.httpStatus < 400 → r.decoded = some o →
      goToLower o.State ∉ (["succeeded", "success", "completed", "complete",
        "failed", "faulted"] : List String) →
      pollOperationSteps d (r :: rest) =
        ((pollOperationSteps (nextPollDelay d r.retryAfter) rest).1,
          nextPollDelay d r.retryAfter ::
            (pollOperationSteps (nextPollDelay d r.retryAfter) rest).2)) := by
  refine ⟨?_, ?_, ?_, ?_, ?_⟩
  · intro o h
    unfold operationStatus.State
    rw [if_pos h]
  · intro o h
    unfold operationStatus.State
    rw [if_neg (by simp [h])]
  · intro d r rest o hlt hdec hcls
    simp [pollOperationSteps, Nat.not_le.mpr hlt, hdec, classify_success_of hcls]
  · intro d r rest o hlt hdec hcls
    simp [pollOperationSteps, Nat.not_le.mpr hlt, hdec, classify_failure_of hcls]
  · intro d r rest o hlt hdec hcls
    simp [pollOperationSteps, Nat.not_le.mpr hlt, hdec, classify_pending_of hcls]

/-- Claim C2 witness: a decoded payload with Status "Succeeded" makes the
loop return success immediately; one with State "Failed" and a nested
message returns the formatted error. -/
theorem pollOperation_classification_witness :
    pollOperationSteps 5
      ([⟨200, "200 OK", some ⟨"", "", "Succeeded", "", none⟩, "", ""⟩]) = (.ok, []) ∧
    pollOperationSteps 5
      ([⟨200, "200 OK", some ⟨"", "", "", "Failed", some ⟨"E", "boom"⟩⟩, "", ""⟩]) =
      (.err ("operation failed: boom"), []) :=
  ⟨pollOperation_classification.2.2.1 5 _ [] ⟨"", "", "Succeeded", "", none⟩
      (by decide) rfl (by decide),
    pollOperation_classification.2.2.2.1 5 _ [] ⟨"", "", "", "Failed", some ⟨"E", "boom"⟩⟩
      (by decide) rfl (by decide)⟩

/-- Claim C6 counterexample: a pending response carrying Retry-After "0",
which is parseable as the integer 0, does not override the delay: the
poller still waits the current 5 seconds before the next poll and for the
one after, not 0. -/
theorem pollOperation_retryAfter_zero_no_override :
    (parseDecNat ("0") = some 0) ∧
    (pollOperationSteps 5
      ([⟨200, "200 OK", some ⟨"", "", "Running", "", none⟩, "", "0"⟩,
        ⟨200, "200 OK", some ⟨"", "", "Running", "", none⟩, "", ""⟩])).2 = [5, 5] ∧
    (5 : Nat) ≠ 0 :=
  ⟨by decide, by decide, by decide⟩

/-- Claim C6 (amended): the initial poll delay is 5 seconds; a pending
response whose Retry-After header parses as a positive integer number of
seconds overrides the delay used for the next wait; and the override is
sticky: with no further Retry-After headers every later wait keeps the
current value, never resetting to 5. Unlike the original claim, a header
parsing to 0 (or failing to parse) leaves the delay unchanged. -/
theorem pollOperation_retryAfter :
    (∀ (r : PollResp) (rest : List PollResp) (o : operationStatus),
      r.httpStatus < 400 → r.decoded = some o →
      classifyOperationStatus o = .pending → r.retryAfter = "" →
      ((pollOperationSteps 5 (r :: rest)).2).head? = some 5) ∧
    (∀ (d : Nat) (r : PollResp) (rest : List PollResp) (o : operationStatus) (n : Nat),
      r.httpStatus < 400 → r.decoded = some o →
      classifyOperationStatus o = .pending →
      goRetrySeconds r.retryAfter = some n → 0 < n →
      ((pollOperationSteps d (r :: rest)).2).head? = some n) ∧
    (∀ (d : Nat) (rs : List PollResp),
      (∀ r ∈ rs, r.retryAfter = "") →
      ∀ x ∈ (pollOperationSteps d rs).2, x = d) := by
  refine ⟨?_, ?_, ?_⟩
  · intro r rest o hlt hdec hcls hra
    have hnd : nextPollDelay 5 r.retryAfter = 5 := by
      unfold nextPollDelay
      rw [if_neg (by simp [hra])]
    simp [pollOperationSteps, Nat.not_le.mpr hlt, hdec, hcls, hnd]
  · intro d r rest o n hlt hdec hcls hparse hpos
    have hne : r.retryAfter ≠ "" := by
      intro he
      rw [he] at hparse
      have hnone : goRetrySeconds "" = none := by decide
      rw [hnone] at hparse
      cases hparse
    have hnd : nextPollDelay d r.retryAfter = n := by
      unfold nextPollDelay
      rw [if_pos hne, hparse]
      exact if_pos hpos
    simp [pollOperationSteps, Nat.not_le.mpr hlt, hdec, hcls, hnd]
  · intro d rs h
    induction rs generalizing d with
    | nil =>
      intro x hx
      simp [pollOperationSteps] at hx
    | cons r rs ih =>
      intro x hx
      by_cases hst : 400 ≤ r.httpStatus
      · simp [pollOperationSteps, hst] at hx
      · cases hdec : r.decoded with
        | none => simp [pollOperationSteps, hst, hdec] at hx
        | some o =>
          cases hcl : classifyOperationStatus o with
          | success => simp [pollOperationSteps, hst, hdec, hcl] at hx
          | failure m => simp [pollOperationSteps, hst, hdec, hcl] at hx
          | pending =>
            have hra : r.retryAfter = "" := h r (List.mem_cons_self r rs)
            have hnd : nextPollDelay d r.retryAfter = d := by
              unfold nextPollDelay
              rw [if_neg (by simp [hra])]
            simp only [pollOperationSteps, if_neg hst, hdec, hcl, hnd] at hx
            rcases List.mem_cons.mp hx with h1 | h2
            · exact h1
            · exact ih d (fun r hr => h r (List.mem_cons_of_mem _ hr)) x h2

/-- Claim C6 witness: Retry-After 2 on a pending response delays the next
poll 2 seconds instead of the default 5, applied through the amended
theorem with every hypothesis discharged by evaluation. -/
theorem pollOperation_retryAfter_witness :
    ((pollOperationSteps 5
      ([⟨200, "200 OK", some ⟨"", "", "Running", "", none⟩, "", "2"⟩,
        ⟨200, "200 OK", some ⟨"", "", "Running", "", none⟩, "", ""⟩])).2).head? = some 2 :=
  pollOperation_retryAfter.2.1 5 _ _ ⟨"", "", "Running", "", none⟩ 2
    (by decide) rfl (by decide) (by decide) (by decide)

/-- APIError from internal/servicefabric/errors.go: method, path, status
code, cluster error code and message. The Code field is assigned by
doRequest from the cluster error envelope; the spec describes it as the
optional cluster-specific error code. -/
structure APIError where
  Method : String
  Path : String
  StatusCode : Nat
  Code : String
  Message : String
deriving DecidableEq

/-- A Go error surfaced by this client: a typed API error, or any other
error value (local validation, transport, formatted message). -/
inductive GoErr where
  | api : APIError → GoErr
  | other : String → GoErr
deriving DecidableEq

/-- IsNotFoundError from errors.go: errors.As to an APIError whose status
code is 404. -/
def IsNotFoundError : GoErr → Bool
  | .api e => e.StatusCode == 404
  | .other _ => false

/-- Modelled from the spec: the cluster code for the upgrade-in-progress
conflict; the classifier functions other than IsNotFoundError are not in
src (only their callers are), and the spec pins them to 409 plus a
specific code. -/
def fabricUpgradeInProgressCode : String := "FABRIC_E_APPLICATION_UPGRADE_IN_PROGRESS"

/-- Modelled from the spec: upgrade-in-progress classifier, a conflict
(409) carrying the specific cluster code. -/
def IsApplicationUpgradeInProgressError : GoErr → Bool
  | .api e => e.StatusCode == 409 && e.Code == fabricUpgradeInProgressCode
  | .other _ => false

/-- applicationUpgradeProgress from internal/servicefabric: the decoded
GetUpgradeProgress payload (absent JSON fields decode to ""). -/
structure applicationUpgradeProgress where
  UpgradeState : String
  FailureReason : String
  UpgradeStatusDetails : String
deriving DecidableEq

/-- One getApplicationUpgradeProgress outcome: a decoded progress payload
or an error. -/
inductive ProgressFetch where
  | ok : applicationUpgradeProgress → ProgressFetch
  | failed : GoErr → ProgressFetch
deriving DecidableEq

inductive WaitResult where
  | ok : WaitResult
  | err : GoErr → WaitResult
  | ranOut : WaitResult
deriving DecidableEq

/-- waitForApplicationUpgrade from internal/servicefabric, driven by the
successive progress fetches; returns the outcome and the number of
fetches performed. Not-found means the application was deleted
concurrently and is success; RollingForwardCompleted or an empty state is
terminal success; RollingBackCompleted or Failed is terminal failure;
every other state (known transitional or unknown) keeps polling. -/
def waitForApplicationUpgrade : List ProgressFetch → WaitResult × Nat
  | [] => (.ranOut, 0)
  | f :: rest =>
    match f with
    | .failed e => if IsNotFoundError e then (.ok, 1) else (.err e, 1)
    | .ok p =>
      if p.UpgradeState = "RollingForwardCompleted" ∨ p.UpgradeState = "" then (.ok, 1)
      else if p.UpgradeState = "RollingBackCompleted" ∨ p.UpgradeState = "Failed" then
        (.err (.other ("application upgrade failed: state=" ++ p.UpgradeState ++
          " details=" ++ p.UpgradeStatusDetails)), 1)
      else
        ((waitForApplicationUpgrade rest).1, (waitForApplicationUpgrade rest).2 + 1)

/-- Claim C10: a progress payload whose UpgradeState is empty (decoded ""
when the field is absent) is terminal success: the wait loop returns ok
after that single fetch without touching later responses, exactly as it
does for RollingForwardCompleted. -/
theorem waitForUpgrade_empty_state_terminal :
    (∀ (p : applicationUpgradeProgress) (rest : List ProgressFetch),
      p.UpgradeState = "" →
      waitForApplicationUpgrade (.ok p :: rest) = (.ok, 1)) ∧
    (∀ (p q : applicationUpgradeProgress) (rest rest' : List ProgressFetch),
      p.UpgradeState = "" → q.UpgradeState = "RollingForwardCompleted" →
      waitForApplicationUpgrade (.ok p :: rest) =
        waitForApplicationUpgrade (.ok q :: rest')) := by
  constructor
  · intro p rest hp
    simp [waitForApplicationUpgrade, hp]
  · intro p q rest rest' hp hq
    simp [waitForApplicationUpgrade, hp, hq]

/-- Claim C10 witness: the theorem evaluated at a payload with empty
state next to one reporting RollingForwardCompleted. -/
theorem waitForUpgrade_empty_state_terminal_witness :
    waitForApplicationUpgrade ([.ok ⟨"", "", ""⟩]) = (.ok, 1) ∧
    waitForApplicationUpgrade ([.ok ⟨"", "", ""⟩]) =
      waitForApplicationUpgrade ([.ok ⟨"RollingForwardCompleted", "", ""⟩]) :=
  ⟨waitForUpgrade_empty_state_terminal.1 ⟨"", "", ""⟩ [] rfl,
   waitForUpgrade_empty_state_terminal.2 ⟨"", "", ""⟩ ⟨"RollingForwardCompleted", "", ""⟩
     [] [] rfl rfl⟩

/-- ApplicationUpgradeDescription from internal/servicefabric: the fields
relevant to the upgrade request (the parameter list preparation is the
map-to-list conversion verified separately). -/
structure ApplicationUpgradeDescription where
  Name : String
  TargetApplicationTypeVersion : String
  UpgradeKind : String
  RollingUpgradeMode : String
  ForceRestart : Bool
deriving DecidableEq

/-- The defaulting applied by UpgradeApplication before starting:
UpgradeKind "Rolling" and RollingUpgradeMode "UnmonitoredAuto" when
unset. -/
def upgradeDefaults (d : ApplicationUpgradeDescription) : ApplicationUpgradeDescription :=
  { d with
    UpgradeKind := if d.UpgradeKind = "" then "Rolling" else d.UpgradeKind,
    RollingUpgradeMode :=
      if d.RollingUpgradeMode = "" then "UnmonitoredAuto" else d.RollingUpgradeMode }

/-- The calls UpgradeApplication performs against the cluster: a start
request carrying the prepared description, or a wait-for-terminal-state
cycle on the application name. -/
inductive UpgradeEv where
  | startCall : ApplicationUpgradeDescription → UpgradeEv
  | waitCycle : String → UpgradeEv
deriving DecidableEq

/-- Pops the next outcome from an oracle stream (an exhausted stream
yields success; the theorems always supply enough outcomes). -/
def popOutcome : List (Option GoErr) → Option GoErr × List (Option GoErr)
  | [] => (none, [])
  | x :: rest => (x, rest)

/-- UpgradeApplication from internal/servicefabric, abstracted over the
outcomes the cluster gives to the successive start requests and wait
cycles (none is success): guard on the name, apply defaults, start; if
the start fails with the upgrade-in-progress conflict, wait once, then
re-issue the start once, returning its error on failure; any other start
failure returns immediately; after a successful or conflict-recovered
start, wait for terminal state. Returns the outcome with the trace of
calls performed. -/
def UpgradeApplication (desc : ApplicationUpgradeDescription)
    (starts waits : List (Option GoErr)) : Option GoErr × List UpgradeEv :=
  if desc.Name = "" then (some (.other "application name required"), [])
  else
    let d := upgradeDefaults desc
    match popOutcome starts with
    | (some e, starts₁) =>
      if IsApplicationUpgradeInProgressError e then
        match popOutcome waits with
        | (some we, _) => (some we, [.startCall d, .waitCycle desc.Name])
        | (none, waits₁) =>
          match popOutcome starts₁ with
          | (some e2, _) =>
            (some e2, [.startCall d, .waitCycle desc.Name, .startCall d])
          | (none, _) =>
            ((popOutcome waits₁).1,
              [.startCall d, .waitCycle desc.Name, .startCall d, .waitCycle desc.Name])
      else (some e, [.startCall d])
    | (none, _) => ((popOutcome waits).1, [.startCall d, .waitCycle desc.Name])

/-- Counts the start requests in a call trace. -/
def countStarts (l : List UpgradeEv) : Nat :=
  l.countP (fun ev => match ev with | .startCall _ => true | .waitCycle _ => false)

/-- Claim C1: when the first start fails with the upgrade-in-progress
conflict, UpgradeApplication performs exactly one wait cycle then exactly
one re-issued start (whose failure, conflict included, is final — never a
second retry), followed by the final wait; any other start failure
returns immediately with no wait; a successful start is always followed
by the terminal-state wait; and no run ever issues more than two start
requests. -/
theorem UpgradeApplication_conflict_retry :
    (∀ (desc : ApplicationUpgradeDescription) (e : GoErr)
        (w : Option GoErr) (ss ws : List (Option GoErr)),
      desc.Name ≠ "" → IsApplicationUpgradeInProgressError e = true →
      UpgradeApplication desc (some e :: none :: ss) (none :: w :: ws) =
        (w, [.startCall (upgradeDefaults desc), .waitCycle desc.Name,
          .startCall (upgradeDefaults desc), .waitCycle desc.Name])) ∧
    (∀ (desc : ApplicationUpgradeDescription) (e e₂ : GoErr)
        (ss ws : List (Option GoErr)),
      desc.Name ≠ "" → IsApplicationUpgradeInProgressError e = true →
      UpgradeApplication desc (some e :: some e₂ :: ss) (none :: ws) =
        (some e₂, [.startCall (upgradeDefaults desc), .waitCycle desc.Name,
          .startCall (upgradeDefaults desc)])) ∧
    (∀ (desc : ApplicationUpgradeDescription) (e : GoErr)
        (ss ws : List (Option GoErr)),
      desc.Name ≠ "" → IsApplicationUpgradeInProgressError e = false →
      UpgradeApplication desc (some e :: ss) ws =
        (some e, [.startCall (upgradeDefaults desc)])) ∧
    (∀ (desc : ApplicationUpgradeDescription) (w : Option GoErr)
        (ss ws : List (Option GoErr)),
      desc.Name ≠ "" →
      UpgradeApplication desc (none :: ss) (w :: ws) =
        (w, [.startCall (upgradeDefaults desc), .waitCycle desc.Name])) ∧
    (∀ (desc : ApplicationUpgradeDescription) (ss ws : List (Option GoErr)),
      countStarts ((UpgradeApplication desc ss ws).2) ≤ 2) := by
  refine ⟨?_, ?_, ?_, ?_, ?_⟩
  · intro desc e w ss ws hn he
    simp [UpgradeApplication, hn, popOutcome, he]
  · intro desc e e₂ ss ws hn he
    simp [UpgradeApplication, hn, popOutcome, he]
  · intro desc e ss ws hn he
    simp [UpgradeApplication, hn, popOutcome, he]
  · intro desc w ss ws hn
    simp [UpgradeApplication, hn, popOutcome]
  · intro desc ss ws
    by_cases hn : desc.Name = ""
    · simp [UpgradeApplication, hn, countStarts]
    · cases ss with
      | nil => simp [UpgradeApplication, hn, popOutcome, countStarts]
      | cons s₁ ss =>
        cases s₁ with
        | none => simp [UpgradeApplication, hn, popOutcome, countStarts]
        | some e =>
          by_cases he : IsApplicationUpgradeInProgressError e
          · cases ws with
            | nil =>
              cases ss with
              | nil => simp [UpgradeApplication, hn, popOutcome, he, countStarts]
              | cons s₂ ss =>
                cases s₂ <;> simp [UpgradeApplication, hn, popOutcome, he, countStarts]
            | cons w₁ ws =>
              cases w₁ with
              | some we => simp [UpgradeApplication, hn, popOutcome, he, countStarts]
              | none =>
                cases ss with
                | nil => simp [UpgradeApplication, hn, popOutcome, he, countStarts]
                | cons s₂ ss =>
                  cases s₂ <;> simp [UpgradeApplication, hn, popOutcome, he, countStarts]
          · simp [UpgradeApplication, hn, popOutcome, he, countStarts]

/-- Claim C1 witness: a concrete conflict-then-recovered run evaluated
through the theorem, with the conflict error being a 409 carrying the
upgrade-in-progress cluster code. -/
theorem UpgradeApplication_conflict_retry_witness :
    UpgradeApplication ⟨"fabric:/App", "2.0", "", "", false⟩
      ([some (.api ⟨"POST", "/Applications/App/$/Upgrade", 409,
          "FABRIC_E_APPLICATION_UPGRADE_IN_PROGRESS", "in progress"⟩), none])
      ([none, none]) =
      (none, [.startCall (upgradeDefaults ⟨"fabric:/App", "2.0", "", "", false⟩),
        .waitCycle "fabric:/App",
        .startCall (upgradeDefaults ⟨"fabric:/App", "2.0", "", "", false⟩),
        .waitCycle "fabric:/App"]) :=
  UpgradeApplication_conflict_retry.1 ⟨"fabric:/App", "2.0", "", "", false⟩
    (.api ⟨"POST", "/Applications/App/$/Upgrade", 409,
      "FABRIC_E_APPLICATION_UPGRADE_IN_PROGRESS", "in progress"⟩)
    none [] [] (by decide) (by decide)

/-- The cluster JSON error envelope, Error.Code and Error.Message; none
models a body on which the envelope does not parse. -/
structure fabricErrorEnvelope where
  Code : String
  Message : String
deriving DecidableEq

/-- The status ≥ 400 handling in doRequest: a typed error from method,
path, status and trimmed raw body; when the envelope parses, a non-empty
envelope code is copied into Code and a non-empty envelope message
replaces the body-derived message (trimmed). -/
def apiErrorFromResponse (method path : String) (status : Nat) (rawBody : String)
    (envelope : Option fabricErrorEnvelope) : APIError :=
  let base : APIError := ⟨method, path, status, "", goTrimSpace rawBody⟩
  match envelope with
  | none => base
  | some f =>
    { base with
      Code := if f.Code ≠ "" then f.Code else base.Code,
      Message := if f.Message ≠ "" then goTrimSpace f.Message else base.Message }

/-- doRequest's response classification: every status ≥ 400 becomes the
typed API error, anything below passes through. -/
def doRequestCheck (method path : String) (status : Nat) (rawBody : String)
    (envelope : Option fabricErrorEnvelope) : Except APIError Unit :=
  if 400 ≤ status then
    .error (apiErrorFromResponse method path status rawBody envelope)
  else .ok ()

/-- Modelled from the spec: cluster code for the already-exists conflict
on application types. -/
def fabricApplicationTypeAlreadyExistsCode : String :=
  "FABRIC_E_APPLICATION_TYPE_ALREADY_EXISTS"

/-- Modelled from the spec: cluster code for the in-use conflict on
application types. -/
def fabricApplicationTypeInUseCode : String := "FABRIC_E_APPLICATION_TYPE_IN_USE"

/-- Modelled from the spec: already-exists classifier, a 409 carrying the
specific cluster code. -/
def IsApplicationTypeAlreadyExistsError : GoErr → Bool
  | .api e => e.StatusCode == 409 && e.Code == fabricApplicationTypeAlreadyExistsCode
  | .other _ => false

/-- Modelled from the spec: in-use classifier, a 409 carrying the
specific cluster code. -/
def IsApplicationTypeInUseError : GoErr → Bool
  | .api e => e.StatusCode == 409 && e.Code == fabricApplicationTypeInUseCode
  | .other _ => false

/-- Modelled from the spec: generic conflict classifier (any 409). -/
def IsConflictError : GoErr → Bool
  | .api e => e.StatusCode == 409
  | .other _ => false

/-- Claim C4: every response with status ≥ 400 becomes a typed API error
carrying the method, path, status, the optional cluster code extracted
from the envelope, and a message from the envelope falling back to the
trimmed raw body; and the classifier separates not-found (404) and the
three specific 409 sub-kinds from each other and from generic
conflicts. -/
theorem doRequest_typed_error_classification :
    (∀ (method path rawBody : String) (status : Nat) (env : Option fabricErrorEnvelope),
      400 ≤ status →
      doRequestCheck method path status rawBody env =
        .error (apiErrorFromResponse method path status rawBody env)) ∧
    (∀ (method path rawBody : String) (status : Nat) (env : Option fabricErrorEnvelope),
      (apiErrorFromResponse method path status rawBody env).Method = method ∧
      (apiErrorFromResponse method path status rawBody env).Path = path ∧
      (apiErrorFromResponse method path status rawBody env).StatusCode = status) ∧
    (∀ (method path rawBody : String) (status : Nat),
      apiErrorFromResponse method path status rawBody none =
        ⟨method, path, status, "", goTrimSpace rawBody⟩) ∧
    (∀ (method path rawBody : String) (status : Nat) (f : fabricErrorEnvelope),
      f.Code ≠ "" → f.Message ≠ "" →
      apiErrorFromResponse method path status rawBody (some f) =
        ⟨method, path, status, f.Code, goTrimSpace f.Message⟩) ∧
    (∀ (method path rawBody : String) (status : Nat) (f : fabricErrorEnvelope),
      f.Code = "" → f.Message = "" →
      apiErrorFromResponse method path status rawBody (some f) =
        ⟨method, path, status, "", goTrimSpace rawBody⟩) ∧
    (∀ (method path rawBody : String) (status : Nat) (env : Option fabricErrorEnvelope),
      status < 400 → doRequestCheck method path status rawBody env = .ok ()) ∧
    (∀ e : APIError, e.StatusCode = 409 →
      (e.Code = fabricApplicationTypeAlreadyExistsCode →
        IsApplicationTypeAlreadyExistsError (.api e) = true ∧
        IsApplicationTypeInUseError (.api e) = false ∧
        IsApplicationUpgradeInProgressError (.api e) = false ∧
        IsNotFoundError (.api e) = false) ∧
      (e.Code = fabricApplicationTypeInUseCode →
        IsApplicationTypeInUseError (.api e) = true ∧
        IsApplicationTypeAlreadyExistsError (.api e) = false ∧
        IsApplicationUpgradeInProgressError (.api e) = false) ∧
      (e.Code = fabricUpgradeInProgressCode →
        IsApplicationUpgradeInProgressError (.api e) = true ∧
        IsApplicationTypeAlreadyExistsError (.api e) = false ∧
        IsApplicationTypeInUseError (.api e) = false) ∧
      IsConflictError (.api e) = true ∧
      (e.Code ≠ fabricApplicationTypeAlreadyExistsCode →
        e.Code ≠ fabricApplicationTypeInUseCode →
        e.Code ≠ fabricUpgradeInProgressCode →
        IsApplicationTypeAlreadyExistsError (.api e) = false ∧
        IsApplicationTypeInUseError (.api e) = false ∧
        IsApplicationUpgradeInProgressError (.api e) = false)) ∧
    (∀ e : APIError, e.StatusCode = 404 →
      IsNotFoundError (.api e) = true ∧ IsConflictError (.api e) = false) := by
  refine ⟨?_, ?_, ?_, ?_, ?_, ?_, ?_, ?_⟩
  · intro method path rawBody status env h
    simp [doRequestCheck, h]
  · intro method path rawBody status env
    cases env with
    | none => exact ⟨rfl, rfl, rfl⟩
    | some f => exact ⟨rfl, rfl, rfl⟩
  · intro method path rawBody status
    rfl
  · intro method path rawBody status f hc hm
    simp [apiErrorFromResponse, hc, hm]
  · intro method path rawBody status f hc hm
    simp [apiErrorFromResponse, hc, hm]
  · intro method path rawBody status env h
    simp [doRequestCheck, Nat.not_le.mpr h]
  · intro e h409
    refine ⟨?_, ?_, ?_, ?_, ?_⟩
    · intro hc
      refine ⟨?_, ?_, ?_, ?_⟩ <;>
        simp [IsApplicationTypeAlreadyExistsError, IsApplicationTypeInUseError,
          IsApplicationUpgradeInProgressError, IsNotFoundError, h409, hc,
          fabricApplicationTypeAlreadyExistsCode, fabricApplicationTypeInUseCode,
          fabricUpgradeInProgressCode]
    · intro hc
      refine ⟨?_, ?_, ?_⟩ <;>
        simp [IsApplicationTypeAlreadyExistsError, IsApplicationTypeInUseError,
          IsApplicationUpgradeInProgressError, h409, hc,
          fabricApplicationTypeAlreadyExistsCode, fabricApplicationTypeInUseCode,
          fabricUpgradeInProgressCode]
    · intro hc
      refine ⟨?_, ?_, ?_⟩ <;>
        simp [IsApplicationTypeAlreadyExistsError, IsApplicationTypeInUseError,
          IsApplicationUpgradeInProgressError, h409, hc,
          fabricApplicationTypeAlreadyExistsCode, fabricApplicationTypeInUseCode,
          fabricUpgradeInProgressCode]
    · simp [IsConflictError, h409]
    · intro h1 h2 h3
      refine ⟨?_, ?_, ?_⟩ <;>
        simp [IsApplicationTypeAlreadyExistsError, IsApplicationTypeInUseError,
          IsApplicationUpgradeInProgressError, h409, h1, h2, h3]
  · intro e h404
    exact ⟨by simp [IsNotFoundError, h404], by simp [IsConflictError, h404]⟩

/-- Claim C4 witness: the conversion and the classifiers evaluated on
concrete 404 and 409 errors, with every hypothesis discharged by
evaluation. -/
theorem doRequest_typed_error_classification_witness :
    doRequestCheck "GET" "/Applications/App" 404 "missing" none =
      .error (apiErrorFromResponse "GET" "/Applications/App" 404 "missing" none) ∧
    IsNotFoundError (.api ⟨"GET", "/x", 404, "", "m"⟩) = true ∧
    IsApplicationTypeAlreadyExistsError
      (.api ⟨"POST", "/x", 409, "FABRIC_E_APPLICATION_TYPE_ALREADY_EXISTS", "m"⟩) = true :=
  ⟨doRequest_typed_error_classification.1 "GET" "/Applications/App" "missing" 404 none
      (by decide),
   (doRequest_typed_error_classification.2.2.2.2.2.2.2
      ⟨"GET", "/x", 404, "", "m"⟩ rfl).1,
   ((doRequest_typed_error_classification.2.2.2.2.2.2.1
      ⟨"POST", "/x", 409, "FABRIC_E_APPLICATION_TYPE_ALREADY_EXISTS", "m"⟩ rfl).1 rfl).1⟩

/-- Uppercase hexadecimal digit, as Go percent-encoding emits. -/
def hexUpper (n : Nat) : Char :=
  if n < 10 then Char.ofNat (48 + n) else Char.ofNat (55 + n)

/-- Go net/url shouldEscape in path-segment mode: alphanumerics, the
unreserved marks -_.~ and the sub-delims allowed inside a path segment
stay literal; everything else (including '/', ';', ',' and '?') is
percent-encoded. -/
def pathSegByteKeep (b : Nat) : Bool :=
  (48 ≤ b && b ≤ 57) || (65 ≤ b && b ≤ 90) || (97 ≤ b && b ≤ 122) ||
  (b == 45) || (b == 95) || (b == 46) || (b == 126) ||
  (b == 36) || (b == 38) || (b == 43) || (b == 58) || (b == 61) || (b == 64)

/-- Percent-encoding of one byte in path-segment mode. -/
def escapeByte (b : Nat) : List Char :=
  if pathSegByteKeep b then [Char.ofNat b]
  else ['%', hexUpper (b / 16), hexUpper (b % 16)]

/-- UTF-8 bytes of a character (Go strings are byte sequences; escaping
operates bytewise). -/
def utf8Bytes (c : Char) : List Nat :=
  let n := c.toNat
  if n < 128 then [n]
  else if n < 2048 then [192 + n / 64, 128 + n % 64]
  else if n < 65536 then [224 + n / 4096, 128 + (n / 64) % 64, 128 + n % 64]
  else [240 + n / 262144, 128 + (n / 4096) % 64, 128 + (n / 64) % 64, 128 + n % 64]

/-- Go url.PathEscape. -/
def goPathEscape (s : String) : String :=
  String.mk ((((s.data.map utf8Bytes).flatten).map escapeByte).flatten)

/-- The GET endpoint used by GetApplication: the escaped derived internal
application id under /Applications/. -/
def getApplicationEndpoint (name : String) : String :=
  "/Applications/" ++ goPathEscape (applicationIDFromName name)

/-- The outcomes of one GetApplication request, classified by status: an
API failure (≥ 400), the 202 materializing retry (poll the location, back
off, re-read), the synthetic 204 not-found, the empty-body hard error, a
decode failure or the decoded payload. -/
inductive GetAppOutcome where
  | apiFailure : APIError → GetAppOutcome
  | retryMaterializing : String → GetAppOutcome
  | notFound : APIError → GetAppOutcome
  | emptyBodyErr : GetAppOutcome
  | decodeErr : GetAppOutcome
  | success : String → GetAppOutcome
deriving DecidableEq

/-- GetApplication's dispatch on one response from internal/servicefabric
(the decodes flag abstracts whether the non-empty body unmarshals). -/
def getApplicationStep (name : String) (status : Nat) (location : String)
    (body : String) (envelope : Option fabricErrorEnvelope) (decodes : Bool) :
    GetAppOutcome :=
  if 400 ≤ status then
    .apiFailure (apiErrorFromResponse "GET" (getApplicationEndpoint name) status
      body envelope)
  else if status = 202 then .retryMaterializing location
  else if status = 204 then
    .notFound ⟨"GET", getApplicationEndpoint name, 404, "", "application not found"⟩
  else if body = "" then .emptyBodyErr
  else if decodes then .success body
  else .decodeErr

/-- Claim C5: a 204 No Content response to GetApplication is translated
into a synthetic typed not-found API error with StatusCode 404 carrying
the request path, on which IsNotFoundError holds, never a success or a
decode attempt. -/
theorem getApplication_204_notFound :
    ∀ (name location body : String) (env : Option fabricErrorEnvelope) (dec : Bool),
      getApplicationStep name 204 location body env dec =
        .notFound ⟨"GET", getApplicationEndpoint name, 404, "",
          "application not found"⟩ ∧
      IsNotFoundError (.api ⟨"GET", getApplicationEndpoint name, 404, "",
        "application not found"⟩) = true := by
  intro name location body env dec
  constructor
  · simp [getApplicationStep]
  · simp [IsNotFoundError]

/-- canonicalServiceKind from internal/provider/resource_service.go:
trims, lowercases and canonicalizes the kind, "" when unsupported. -/
def canonicalServiceKind (input : String) : String :=
  if goToLower (goTrimSpace input) = "stateless" then "Stateless"
  else if goToLower (goTrimSpace input) = "stateful" then "Stateful"
  else ""

/-- secondsString from resource_service.go: an optional seconds count
formatted as a decimal string. -/
def secondsStringGo (v : Option Int) : Option String := v.map (fun n => toString n)

/-- The stateless block of the service plan: each field none when null or
unknown in the configuration (the stringValue/int64Value helpers). -/
structure StatelessModelOpt where
  instanceCount : Option Int
  minInstanceCount : Option Int
  minInstancePercentage : Option Int
  instanceCloseDelaySeconds : Option Int
  instanceRestartWaitSeconds : Option Int
deriving DecidableEq

/-- The stateful block of the service plan. -/
structure StatefulModelOpt where
  targetReplicaSetSize : Option Int
  minReplicaSetSize : Option Int
  replicaRestartWaitSeconds : Option Int
  quorumLossWaitSeconds : Option Int
  standByReplicaKeepSeconds : Option Int
  servicePlacementTimeLimitSeconds : Option Int
deriving DecidableEq

/-- The service resource plan fields consumed by buildUpdateDescription;
none models a null or unknown attribute, including the whole stateless or
stateful block. -/
structure ServicePlanModel where
  serviceKind : Option String
  placementConstraints : Option String
  defaultMoveCost : Option String
  serviceDnsName : Option String
  stateless : Option StatelessModelOpt
  stateful : Option StatefulModelOpt
deriving DecidableEq

/-- StatelessServiceUpdateDescription as populated by
buildUpdateDescription: only explicitly-set fields are present, Flags is
the decimal rendering of the bitmask. -/
structure StatelessServiceUpdateDescription where
  ServiceKind : String
  Flags : String
  PlacementConstraints : Option String
  DefaultMoveCost : Option String
  ServiceDnsName : Option String
  InstanceCount : Option Int
  MinInstanceCount : Option Int
  MinInstancePercentage : Option Int
  InstanceCloseDelayDurationSeconds : Option String
  InstanceRestartWaitDurationSeconds : Option String
deriving DecidableEq

/-- StatefulServiceUpdateDescription as populated by
buildUpdateDescription. -/
structure StatefulServiceUpdateDescription where
  ServiceKind : String
  Flags : String
  PlacementConstraints : Option String
  DefaultMoveCost : Option String
  ServiceDnsName : Option String
  TargetReplicaSetSize : Option Int
  MinReplicaSetSize : Option Int
  ReplicaRestartWaitDurationSeconds : Option String
  QuorumLossWaitDurationSeconds : Option String
  StandByReplicaKeepDurationSeconds : Option String
  ServicePlacementTimeLimitSeconds : Option String
deriving DecidableEq

inductive ServiceUpdatePayload where
  | stateless : StatelessServiceUpdateDescription → ServiceUpdatePayload
  | stateful : StatefulServiceUpdateDescription → ServiceUpdatePayload
deriving DecidableEq

/-- The Stateless arm of buildUpdateDescription: the kind-specific bit
assignments (0x0002 placement, 0x0020 move cost, 0x0800 DNS, 0x0001
instance count, 0x0080 min instances, 0x0100 min percentage, 0x0200 close
delay, 0x0400 restart wait) and the field copies, plus the raw bitmask. -/
def buildStatelessUpdate (plan : ServicePlanModel) :
    StatelessServiceUpdateDescription × Nat :=
  let ic := match plan.stateless with | some mm => mm.instanceCount | none => none
  let mic := match plan.stateless with | some mm => mm.minInstanceCount | none => none
  let mip := match plan.stateless with
    | some mm => mm.minInstancePercentage | none => none
  let icd := match plan.stateless with
    | some mm => secondsStringGo mm.instanceCloseDelaySeconds | none => none
  let irw := match plan.stateless with
    | some mm => secondsStringGo mm.instanceRestartWaitSeconds | none => none
  let flags :=
    (if plan.placementConstraints.isSome then 2 else 0) |||
    (if plan.defaultMoveCost.isSome then 32 else 0) |||
    (if plan.serviceDnsName.isSome then 2048 else 0) |||
    (if ic.isSome then 1 else 0) |||
    (if mic.isSome then 128 else 0) |||
    (if mip.isSome then 256 else 0) |||
    (if icd.isSome then 512 else 0) |||
    (if irw.isSome then 1024 else 0)
  (⟨"Stateless", toString flags, plan.placementConstraints, plan.defaultMoveCost,
    plan.serviceDnsName, ic, mic, mip, icd, irw⟩, flags)

/-- The Stateful arm of buildUpdateDescription: bit assignments 0x0020
placement, 0x0200 move cost, 0x2000 DNS, 0x0001 target size, 0x0010 min
size, 0x0002 replica restart, 0x0004 quorum loss, 0x0008 standby keep,
0x0800 placement time limit. -/
def buildStatefulUpdate (plan : ServicePlanModel) :
    StatefulServiceUpdateDescription × Nat :=
  let trs := match plan.stateful with | some mm => mm.targetReplicaSetSize | none => none
  let mrs := match plan.stateful with | some mm => mm.minReplicaSetSize | none => none
  let rrw := match plan.stateful with
    | some mm => secondsStringGo mm.replicaRestartWaitSeconds | none => none
  let qlw := match plan.stateful with
    | some mm => secondsStringGo mm.quorumLossWaitSeconds | none => none
  let sbk := match plan.stateful with
    | some mm => secondsStringGo mm.standByReplicaKeepSeconds | none => none
  let spt := match plan.stateful with
    | some mm => secondsStringGo mm.servicePlacementTimeLimitSeconds | none => none
  let flags :=
    (if plan.placementConstraints.isSome then 32 else 0) |||
    (if plan.defaultMoveCost.isSome then 512 else 0) |||
    (if plan.serviceDnsName.isSome then 8192 else 0) |||
    (if trs.isSome then 1 else 0) |||
    (if mrs.isSome then 16 else 0) |||
    (if rrw.isSome then 2 else 0) |||
    (if qlw.isSome then 4 else 0) |||
    (if sbk.isSome then 8 else 0) |||
    (if spt.isSome then 2048 else 0)
  (⟨"Stateful", toString flags, plan.placementConstraints, plan.defaultMoveCost,
    plan.serviceDnsName, trs, mrs, rrw, qlw, sbk, spt⟩, flags)

/-- buildUpdateDescription from resource_service.go: dispatch on the
canonical kind; a zero bitmask reports nothing changed (none), so the
Update method issues no update call. -/
def buildUpdateDescription (plan : ServicePlanModel) : Option ServiceUpdatePayload :=
  if canonicalServiceKind ((plan.serviceKind).getD "") = "Stateless" then
    if (buildStatelessUpdate plan).2 = 0 then none
    else some (.stateless (buildStatelessUpdate plan).1)
  else if canonicalServiceKind ((plan.serviceKind).getD "") = "Stateful" then
    if (buildStatefulUpdate plan).2 = 0 then none
    else some (.stateful (buildStatefulUpdate plan).1)
  else none

/-- Claim C7: a service update plan in which only default_move_cost is
set produces a payload whose bitmask has exactly the one bit assigned to
that field for the kind (0x0020 = 32 for Stateless, 0x0200 = 512 for
Stateful) and in which no other updatable field is present; a plan with
no field set produces no update call at all. -/
theorem buildUpdate_moveCost_single_bit :
    (∀ (plan : ServicePlanModel) (mc : String),
      canonicalServiceKind ((plan.serviceKind).getD "") = "Stateless" →
      plan.defaultMoveCost = some mc →
      plan.placementConstraints = none → plan.serviceDnsName = none →
      plan.stateless = none →
      buildUpdateDescription plan =
        some (.stateless ⟨"Stateless", "32", none, some mc, none, none, none, none,
          none, none⟩) ∧
      (32 : Nat) = 2 ^ 5 ∧ (∀ i : Nat, Nat.testBit 32 i = true ↔ i = 5)) ∧
    (∀ (plan : ServicePlanModel) (mc : String),
      canonicalServiceKind ((plan.serviceKind).getD "") = "Stateful" →
      plan.defaultMoveCost = some mc →
      plan.placementConstraints = none → plan.serviceDnsName = none →
      plan.stateful = none →
      buildUpdateDescription plan =
        some (.stateful ⟨"Stateful", "512", none, some mc, none, none, none, none,
          none, none, none⟩) ∧
      (512 : Nat) = 2 ^ 9 ∧ (∀ i : Nat, Nat.testBit 512 i = true ↔ i = 9)) ∧
    (∀ plan : ServicePlanModel,
      plan.placementConstraints = none → plan.defaultMoveCost = none →
      plan.serviceDnsName = none → plan.stateless = none → plan.stateful = none →
      buildUpdateDescription plan = none) := by
  refine ⟨?_, ?_, ?_⟩
  · intro plan mc hk hmc hpc hdns hsl
    refine ⟨?_, rfl, ?_⟩
    · simp [buildUpdateDescription, hk, buildStatelessUpdate, hmc, hpc, hdns, hsl]
      rfl
    · intro i
      rw [show (32 : Nat) = 2 ^ 5 from rfl, Nat.testBit_two_pow]
      simp [eq_comm]
  · intro plan mc hk hmc hpc hdns hsf
    have hk2 : ¬ canonicalServiceKind ((plan.serviceKind).getD "") = "Stateless" := by
      rw [hk]
      decide
    refine ⟨?_, rfl, ?_⟩
    · simp [buildUpdateDescription, hk, hk2, buildStatefulUpdate, hmc, hpc, hdns, hsf]
      rfl
    · intro i
      rw [show (512 : Nat) = 2 ^ 9 from rfl, Nat.testBit_two_pow]
      simp [eq_comm]
  · intro plan hpc hmc hdns hsl hsf
    by_cases hk : canonicalServiceKind ((plan.serviceKind).getD "") = "Stateless"
    · simp [buildUpdateDescription, hk, buildStatelessUpdate, hmc, hpc, hdns, hsl]
    · by_cases hk2 : canonicalServiceKind ((plan.serviceKind).getD "") = "Stateful"
      · simp [buildUpdateDescription, hk, hk2, buildStatefulUpdate, hmc, hpc, hdns, hsf]
      · simp [buildUpdateDescription, hk, hk2]

/-- Claim C7 witness: concrete plans with only default_move_cost set, for
both kinds, and an all-unset stateless plan issuing no update. -/
theorem buildUpdate_moveCost_single_bit_witness :
    buildUpdateDescription ⟨some "Stateless", none, some "High", none, none, none⟩ =
      some (.stateless ⟨"Stateless", "32", none, some "High", none, none, none, none,
        none, none⟩) ∧
    buildUpdateDescription ⟨some "Stateful", none, some "Low", none, none, none⟩ =
      some (.stateful ⟨"Stateful", "512", none, some "Low", none, none, none, none,
        none, none, none⟩) ∧
    buildUpdateDescription ⟨some "Stateless", none, none, none, none, none⟩ = none :=
  ⟨(buildUpdate_moveCost_single_bit.1 ⟨some "Stateless", none, some "High", none,
      none, none⟩ "High" (by decide) rfl rfl rfl rfl).1,
   (buildUpdate_moveCost_single_bit.2.1 ⟨some "Stateful", none, some "Low", none,
      none, none⟩ "Low" (by decide) rfl rfl rfl rfl).1,
   buildUpdate_moveCost_single_bit.2.2 ⟨some "Stateless", none, none, none, none,
      none⟩ rfl rfl rfl rfl rfl⟩

/-- canonicalPartitionScheme from resource_service.go: trim, lowercase,
canonicalize; "" for unsupported schemes. -/
def canonicalPartitionScheme (input : String) : String :=
  if goToLower (goTrimSpace input) = "singleton" then "Singleton"
  else if goToLower (goTrimSpace input) = "uniformint64range" ∨
      goToLower (goTrimSpace input) = "uniform_int64_range" then "UniformInt64Range"
  else if goToLower (goTrimSpace input) = "named" then "Named"
  else ""

/-- The partition block of the service plan; none models a null or
unknown attribute. -/
structure PartitionModelOpt where
  scheme : Option String
  count : Option Int
  names : Option (List String)
  lowKey : Option Int
  highKey : Option Int
deriving DecidableEq

/-- servicefabric.PartitionDescription as populated by
expandPartitionDescription (fields as assigned by the caller in
resource_service.go). -/
structure PartitionDescription where
  PartitionScheme : String
  Count : Option Int
  Names : List String
  LowKey : Option Int
  HighKey : Option Int
deriving DecidableEq

/-- expandPartitionDescription from resource_service.go: scheme required
and canonicalized; Singleton forbids a count; Named trims its names,
requires a non-empty name list and defaults the count to the list length;
UniformInt64Range requires both keys with low ≤ high and keeps an
optional count. Errors carry the diagnostic messages. -/
def expandPartitionDescription (m : PartitionModelOpt) :
    Except String PartitionDescription :=
  match m.scheme with
  | none => .error "partition.scheme must be specified."
  | some s =>
    if canonicalPartitionScheme s = "" then
      .error ("Unsupported partition scheme " ++ s ++ ".")
    else if canonicalPartitionScheme s = "Singleton" then
      match m.count with
      | some _ => .error "Singleton partitions cannot specify count."
      | none => .ok ⟨"Singleton", none, [], none, none⟩
    else if canonicalPartitionScheme s = "Named" then
      if ((m.names.getD []).map goTrimSpace).isEmpty then
        .error "Named partitions require at least one entry in names."
      else
        .ok ⟨"Named",
          some (match m.count with
            | some c => c
            | none => (((m.names.getD []).map goTrimSpace).length : Int)),
          (m.names.getD []).map goTrimSpace, none, none⟩
    else
      match m.lowKey, m.highKey with
      | some low, some high =>
        if high < low then .error "high_key must be greater than or equal to low_key."
        else .ok ⟨"UniformInt64Range", m.count, [], some low, some high⟩
      | _, _ => .error "uniform_int64_range partitions require low_key and high_key."

/-- Claim C8 counterexample: a Named scheme whose only name is a single
space is accepted, not rejected: the name is trimmed to the empty string
and the partition comes back with Names [""] and Count 1, so the
validation does not require a non-empty trimmed partition name. -/
theorem expandPartition_blank_name_accepted :
    expandPartitionDescription ⟨some "Named", none, some [" "], none, none⟩ =
      .ok ⟨"Named", some 1, [""], none, none⟩ ∧
    (([" "] : List String).map goTrimSpace).all (fun s => s == "") = true := by
  constructor
  · rfl
  · decide

/-- Claim C8 (amended): partition validation rejects a Singleton scheme
specifying a count (accepting one without); rejects a Named scheme whose
name list is empty or absent, and otherwise trims every name and defaults
the count to the name-list length when unspecified — names that trim to
the empty string are not rejected (see the counterexample); and rejects a
UniformInt64Range scheme missing either key or with high < low, accepting
low ≤ high with an optional count. -/
theorem expandPartition_validation :
    (∀ (m : PartitionModelOpt) (s : String) (c : Int),
      m.scheme = some s → canonicalPartitionScheme s = "Singleton" →
      m.count = some c →
      expandPartitionDescription m =
        .error "Singleton partitions cannot specify count.") ∧
    (∀ (m : PartitionModelOpt) (s : String),
      m.scheme = some s → canonicalPartitionScheme s = "Singleton" →
      m.count = none →
      expandPartitionDescription m = .ok ⟨"Singleton", none, [], none, none⟩) ∧
    (∀ (m : PartitionModelOpt) (s : String),
      m.scheme = some s → canonicalPartitionScheme s = "Named" →
      m.names.getD [] = [] →
      expandPartitionDescription m =
        .error "Named partitions require at least one entry in names.") ∧
    (∀ (m : PartitionModelOpt) (s : String) (names : List String) (c : Int),
      m.scheme = some s → canonicalPartitionScheme s = "Named" →
      m.names = some names → names ≠ [] → m.count = some c →
      expandPartitionDescription m =
        .ok ⟨"Named", some c, names.map goTrimSpace, none, none⟩) ∧
    (∀ (m : PartitionModelOpt) (s : String) (names : List String),
      m.scheme = some s → canonicalPartitionScheme s = "Named" →
      m.names = some names → names ≠ [] → m.count = none →
      expandPartitionDescription m =
        .ok ⟨"Named", some (names.length : Int), names.map goTrimSpace, none, none⟩) ∧
    (∀ (m : PartitionModelOpt) (s : String),
      m.scheme = some s → canonicalPartitionScheme s = "UniformInt64Range" →
      (m.lowKey = none ∨ m.highKey = none) →
      expandPartitionDescription m =
        .error "uniform_int64_range partitions require low_key and high_key.") ∧
    (∀ (m : PartitionModelOpt) (s : String) (low high : Int),
      m.scheme = some s → canonicalPartitionScheme s = "UniformInt64Range" →
      m.lowKey = some low → m.highKey = some high → high < low →
      expandPartitionDescription m =
        .error "high_key must be greater than or equal to low_key.") ∧
    (∀ (m : PartitionModelOpt) (s : String) (low high : Int),
      m.scheme = some s → canonicalPartitionScheme s = "UniformInt64Range" →
      m.lowKey = some low → m.highKey = some high → low ≤ high →
      expandPartitionDescription m =
        .ok ⟨"UniformInt64Range", m.count, [], some low, some high⟩) := by
  refine ⟨?_, ?_, ?_, ?_, ?_, ?_, ?_, ?_⟩
  · intro m s c hs hcs hc
    simp [expandPartitionDescription, hs, hcs, hc]
  · intro m s hs hcs hc
    simp [expandPartitionDescription, hs, hcs, hc]
  · intro m s hs hcs hn
    simp [expandPartitionDescription, hs, hcs, hn]
  · intro m s names c hs hcs hn hne hc
    have hlen : (names.map goTrimSpace).isEmpty = false := by
      cases names with
      | nil => exact absurd rfl hne
      | cons a l => rfl
    simp [expandPartitionDescription, hs, hcs, hn, hlen, hc]
  · intro m s names hs hcs hn hne hc
    have hlen : (names.map goTrimSpace).isEmpty = false := by
      cases names with
      | nil => exact absurd rfl hne
      | cons a l => rfl
    simp [expandPartitionDescription, hs, hcs, hn, hlen, hc]
  · intro m s hs hcs hk
    rcases hk with hk | hk <;>
      · cases hl : m.lowKey <;> cases hh : m.highKey <;>
          simp_all [expandPartitionDescription, hs, hcs]
  · intro m s low high hs hcs hl hh hlt
    simp [expandPartitionDescription, hs, hcs, hl, hh, hlt]
  · intro m s low high hs hcs hl hh hle
    simp [expandPartitionDescription, hs, hcs, hl, hh, Int.not_lt.mpr hle]

/-- Claim C8 witness: each validation branch evaluated on a concrete
partition block through the amended theorem. -/
theorem expandPartition_validation_witness :
    expandPartitionDescription ⟨some "Singleton", some 3, none, none, none⟩ =
      .error "Singleton partitions cannot specify count." ∧
    expandPartitionDescription ⟨some "Named", none, some [], none, none⟩ =
      .error "Named partitions require at least one entry in names." ∧
    expandPartitionDescription ⟨some "Named", none, some [" P0 "], none, none⟩ =
      .ok ⟨"Named", some 1, ["P0"], none, none⟩ ∧
    expandPartitionDescription ⟨some "UniformInt64Range", none, none, some 9, some 1⟩ =
      .error "high_key must be greater than or equal to low_key." :=
  ⟨expandPartition_validation.1 ⟨some "Singleton", some 3, none, none, none⟩
      "Singleton" 3 rfl (by decide) rfl,
   expandPartition_validation.2.2.1 ⟨some "Named", none, some [], none, none⟩
      "Named" rfl (by decide) rfl,
   (expandPartition_validation.2.2.2.2.1 ⟨some "Named", none, some [" P0 "], none, none⟩
      "Named" [" P0 "] rfl (by decide) rfl (by decide) rfl).trans (by rfl),
   expandPartition_validation.2.2.2.2.2.2.1
      ⟨some "UniformInt64Range", none, none, some 9, some 1⟩ "UniformInt64Range"
      9 1 rfl (by decide) rfl rfl (by decide)⟩
